import Mathlib

/-!
Shallow embedding of the `crm` application (models `crm/models.py`,
mutations `crm/schema.py`, filters `crm/filters.py`).

The database is a `State` holding the three tables as lists of rows
together with the auto-increment counters for the primary keys.  Each
GraphQL mutation resolver becomes a function `State → Input → State × …`;
a Python exception raised inside the resolver (always before any write,
or inside `transaction.atomic`) leaves the database untouched, so an
error branch returns the incoming state unchanged together with the
exception message.  Decimal columns are modelled as `ℚ`.
-/

deriving instance DecidableEq for Except

namespace CRM

/-- A stored `Customer` row (`crm/models.py`): auto primary key, `name`,
`email` (declared `unique=True`), optional `phone`. -/
structure Customer where
  id : Nat
  name : String
  email : String
  phone : Option String
deriving DecidableEq, Repr

/-- A stored `Product` row (`crm/models.py`): auto primary key, `name`,
decimal `price`, integer `stock`. -/
structure Product where
  id : Nat
  name : String
  price : ℚ
  stock : Int
deriving DecidableEq, Repr

/-- A stored `Order` row (`crm/models.py`) together with its
`products` many-to-many association (kept as the list of product ids). -/
structure Order where
  id : Nat
  customerId : Nat
  productIds : List Nat
  totalAmount : ℚ
deriving DecidableEq, Repr

/-- The database: the three tables and the next auto-increment pk of each. -/
structure State where
  customers : List Customer
  products : List Product
  orders : List Order
  nextCustomerId : Nat
  nextProductId : Nat
  nextOrderId : Nat
deriving DecidableEq, Repr

/-- A freshly migrated, empty database. -/
def State.empty : State := ⟨[], [], [], 1, 1, 1⟩

/-- `CustomerInput` / `BulkCustomerInput` (`crm/schema.py`): `name` and
`email` required, `phone` optional. -/
structure CustomerInput where
  name : String
  email : String
  phone : Option String
deriving DecidableEq, Repr

/-- `ProductInput` (`crm/schema.py`): `name` and `price` required, `stock`
optional with `default_value=0` (graphene substitutes the default before
the resolver runs, modelled by `Option.getD 0` at entry). -/
structure ProductInput where
  name : String
  price : ℚ
  stock : Option Int
deriving DecidableEq, Repr

/-- `OrderInput` (`crm/schema.py`): a customer id and a list of product
ids (GraphQL `ID` values, used as integer primary keys). -/
structure OrderInput where
  customer_id : Nat
  product_ids : List Nat
deriving DecidableEq, Repr

/-- Split a character list at every occurrence of `sep` (the list of
pieces is never empty; empty pieces witness leading, trailing or doubled
separators). -/
def splitChar (sep : Char) : List Char → List (List Char)
  | [] => [[]]
  | c :: rest =>
    let r := splitChar sep rest
    if c = sep then [] :: r
    else
      match r with
      | h :: t => (c :: h) :: t
      | [] => [[c]]

/-- Models Django's `validate_email` (from `django.core.validators`),
simplified to the shape the mutations rely on: exactly one `@`, a
nonempty local part, a domain of at least two nonempty dot-separated
labels, and no space anywhere. -/
def validate_email (s : String) : Bool :=
  match splitChar '@' s.toList with
  | [u, d] =>
    !u.isEmpty && !u.any (fun c => c = ' ') && !d.any (fun c => c = ' ') &&
      (let labels := splitChar '.' d
       decide (2 ≤ labels.length) && labels.all (fun l => !l.isEmpty))
  | _ => false

/-- A `-` or a space: the optional separator class of the phone regex. -/
def isSep (c : Char) : Bool := c = '-' || c = ' '

/-- Consume exactly `n` decimal digits, returning the remainder. -/
def takeDigits : Nat → List Char → Option (List Char)
  | 0, l => some l
  | n + 1, c :: l => if c.isDigit then takeDigits n l else none
  | _ + 1, [] => none

/-- The possible remainders after consuming an optional separator. -/
def optSep (l : List Char) : List (List Char) :=
  match l with
  | c :: rest => if isSep c then [l, rest] else [l]
  | [] => [l]

/-- Alternative one of the phone regex after the prefix: three digits, an
optional separator, three digits, an optional separator, four digits,
end of input. -/
def tail334 (l : List Char) : Bool :=
  match takeDigits 3 l with
  | none => false
  | some l1 =>
    (optSep l1).any fun l2 =>
      match takeDigits 3 l2 with
      | none => false
      | some l3 =>
        (optSep l3).any fun l4 =>
          match takeDigits 4 l4 with
          | some [] => true
          | _ => false

/-- Alternative two of the phone regex after the prefix: a parenthesised
three-digit group, then an optional separator, three digits, an optional
separator, four digits, end of input. -/
def tailParen (l : List Char) : Bool :=
  match l with
  | '(' :: l1 =>
    (match takeDigits 3 l1 with
     | some (')' :: l2) =>
       (optSep l2).any fun l3 =>
         match takeDigits 3 l3 with
         | none => false
         | some l4 =>
           (optSep l4).any fun l5 =>
             match takeDigits 4 l5 with
             | some [] => true
             | _ => false
     | _ => false)
  | _ => false

/-- Alternative three of the phone regex after the prefix: ten to fifteen
digits, end of input. -/
def tailLong (l : List Char) : Bool :=
  l.all (fun c => c.isDigit) && decide (10 ≤ l.length) && decide (l.length ≤ 15)

/-- Models the `phone_validator` regex of `crm/schema.py`: an optional
plus sign, one to three digits, an optional dash-or-space, then one of
the three alternatives `tail334`, `tailParen`, `tailLong`.  A string
passes the validator exactly when it belongs to the regex language, so
the matcher enumerates the finitely many nondeterministic choices. -/
def phone_validator (s : String) : Bool :=
  let l0 := s.toList
  let afterPlus : List (List Char) :=
    match l0 with
    | '+' :: rest => [rest, l0]
    | _ => [l0]
  afterPlus.any fun l1 =>
    [1, 2, 3].any fun k =>
      match takeDigits k l1 with
      | none => false
      | some l2 =>
        (optSep l2).any fun l3 =>
          tail334 l3 || tailParen l3 || tailLong l3

/-- Python truthiness of the optional `phone` argument: `if phone:` is
taken for a present, nonempty string only. -/
def phoneTruthy (phone : Option String) : Bool :=
  match phone with
  | some p => !(p = "")
  | none => false

/-- The emails of the stored customers, in table order. -/
def storedEmails (s : State) : List String := s.customers.map fun c => c.email

/-- Django's message for a failed email-format validation. -/
def emailFormatMessage : String := "Enter a valid email address."

/-- The `message` of the `phone_validator` `RegexValidator`. -/
def phoneFormatMessage : String :=
  "Phone number must be entered in the format: '+999999999'. Up to 15 digits allowed."

/-- The message of the `AttributeError` that escapes the `except` branch
of `CreateCustomer.mutate`: the handler evaluates
`'duplicate' in e.code_list`, and Django's `ValidationError` has no
`code_list` attribute. -/
def attributeErrorMessage : String :=
  "'ValidationError' object has no attribute 'code_list'"

/-- `CreateCustomer.mutate` (`crm/schema.py`): validate the email format,
then the phone format when a truthy phone is given, then uniqueness of
the email.  Every failure raises `ValidationError` into the `except`
handler, which evaluates `'duplicate' in e.code_list`; Django's
`ValidationError` has no `code_list` attribute, so the handler itself
raises `AttributeError` — the `Validation Error: …` messages it
constructs are dead code, and every failing call surfaces the
`AttributeError` instead, still writing nothing.  The success path is
unaffected: it inserts the row and returns it with a success message. -/
def createCustomer (s : State) (input : CustomerInput) :
    State × Except String (Customer × String) :=
  if !validate_email input.email then
    (s, Except.error attributeErrorMessage)
  else if phoneTruthy input.phone && !phone_validator (input.phone.getD "") then
    (s, Except.error attributeErrorMessage)
  else if s.customers.any (fun c => c.email = input.email) then
    (s, Except.error attributeErrorMessage)
  else
    let c : Customer := ⟨s.nextCustomerId, input.name, input.email, input.phone⟩
    ({ s with customers := s.customers ++ [c], nextCustomerId := s.nextCustomerId + 1 },
     Except.ok (c, "Customer '" ++ input.name ++ "' created successfully."))

/-- The single pre-check query of `BulkCreateCustomers.mutate`:
`Customer.objects.filter(email__in=emails_to_check)` — the stored emails
that occur among the input records. -/
def existingEmails (s : State) (input : List CustomerInput) : List String :=
  (storedEmails s).filter fun e => input.any fun r => r.email = e

/-- The per-record outcome of the loop body of `BulkCreateCustomers.mutate`:
`none` when the record joins the batch, `some msg` when it contributes an
error message.  A `ValidationError` raised by `phone_validator` lands in
the `except` branch and overwrites a previously assigned duplicate-email
message, so the effective priority is email format, then phone format,
then duplicate email. -/
def bulkRecordError (existing : List String) (r : CustomerInput) : Option String :=
  if !validate_email r.email then
    some ("Record for '" ++ r.name ++ "' failed: " ++ emailFormatMessage)
  else if phoneTruthy r.phone && !phone_validator (r.phone.getD "") then
    some ("Record for '" ++ r.name ++ "' failed: " ++ phoneFormatMessage)
  else if r.email ∈ existing then
    some ("Record for '" ++ r.name ++ "' failed: Email '" ++ r.email ++ "' already exists.")
  else
    none

/-- Two batch rows share an email (the in-batch part of the unique
constraint check performed by the database at `bulk_create`). -/
def hasDupEmail : List CustomerInput → Bool
  | [] => false
  | r :: rest => rest.any (fun r2 => r2.email = r.email) || hasDupEmail rest

/-- Whether `Customer.objects.bulk_create` violates the unique-email
constraint: some two batch rows share an email, or a batch row collides
with a stored row.  A violation makes the surrounding
`transaction.atomic` roll the whole insert back. -/
def bulkInsertViolates (s : State) (batch : List CustomerInput) : Bool :=
  hasDupEmail batch || batch.any fun r => s.customers.any fun c => c.email = r.email

/-- `bulk_create` assigns consecutive primary keys to the inserted rows. -/
def assignIds (firstId : Nat) : List CustomerInput → List Customer
  | [] => []
  | r :: rest => ⟨firstId, r.name, r.email, r.phone⟩ :: assignIds (firstId + 1) rest

/-- The message appended when the bulk insert raises (sqlite wording of
the unique-constraint `IntegrityError`). -/
def bulkDbErrorMessage : String :=
  "Database error during bulk creation: UNIQUE constraint failed: crm_customer.email"

/-- `BulkCreateCustomers.mutate` (`crm/schema.py`): one pre-check query,
the per-record loop collecting error messages and the batch, then — when
the batch is nonempty — a single `bulk_create` inside
`transaction.atomic`, whose failure empties the created list and appends
one database-error message. -/
def bulkCreateCustomers (s : State) (input : List CustomerInput) :
    State × List Customer × List String :=
  let ex := existingEmails s input
  let errors := input.filterMap (bulkRecordError ex)
  let batch := input.filter fun r => (bulkRecordError ex r).isNone
  if batch.isEmpty then
    (s, [], errors)
  else if bulkInsertViolates s batch then
    (s, [], errors ++ [bulkDbErrorMessage])
  else
    let created := assignIds s.nextCustomerId batch
    ({ s with customers := s.customers ++ created,
              nextCustomerId := s.nextCustomerId + batch.length },
     created, errors)

/-- `CreateProduct.mutate` (`crm/schema.py`): reject a non-positive price
or a negative stock, otherwise insert the product.  The model-level
`MinValueValidator` declarations are not run by `objects.create`, so
these two conditionals are the whole of the enforcement. -/
def createProduct (s : State) (input : ProductInput) : State × Except String Product :=
  let price := input.price
  let stock := input.stock.getD 0
  if price ≤ 0 then
    (s, Except.error "Validation Error: Price must be a positive number.")
  else if stock < 0 then
    (s, Except.error "Validation Error: Stock cannot be negative.")
  else
    let p : Product := ⟨s.nextProductId, input.name, price, stock⟩
    ({ s with products := s.products ++ [p], nextProductId := s.nextProductId + 1 },
     Except.ok p)

/-- `Order.calculate_total` (`crm/models.py`): `aggregate(Sum('price'))`
over the order's associated products, and `0.00` when the aggregate is
`None`, which happens exactly when the order has no associated product. -/
def calculate_total (s : State) (o : Order) : ℚ :=
  let prices := (s.products.filter fun p => p.id ∈ o.productIds).map fun p => p.price
  match prices with
  | [] => 0
  | _ => prices.sum

/-- Python's `", ".join`. -/
def joinComma : List String → String
  | [] => ""
  | [x] => x
  | x :: y :: rest => x ++ ", " ++ joinComma (y :: rest)

/-- `CreateOrder.mutate` (`crm/schema.py`), decorated with
`transaction.atomic`: reject an empty id list, a missing customer, and a
product-id list whose length differs from the count of matching stored
products; otherwise create the order, associate the products, and save
the computed total.  Every raise happens inside the atomic block, so an
error leaves the state unchanged. -/
def createOrder (s : State) (input : OrderInput) : State × Except String Order :=
  let product_ids := input.product_ids
  if product_ids.isEmpty then
    (s, Except.error "Validation Error: Order must contain at least one product.")
  else
    match s.customers.find? (fun c => c.id = input.customer_id) with
    | none =>
      (s, Except.error ("Validation Error: Customer with ID '"
            ++ toString input.customer_id ++ "' not found."))
    | some customer =>
      let products := s.products.filter fun p => p.id ∈ product_ids
      if products.length ≠ product_ids.length then
        let validIds := products.map fun p => p.id
        let invalidIds := product_ids.filter fun pid => !(pid ∈ validIds)
        (s, Except.error ("Validation Error: Invalid product ID(s) found: "
              ++ joinComma (invalidIds.map toString)))
      else
        let oid := s.nextOrderId
        let order0 : Order := ⟨oid, customer.id, products.map (fun p => p.id), 0⟩
        let s1 := { s with orders := s.orders ++ [order0], nextOrderId := oid + 1 }
        let total := calculate_total s1 order0
        let order : Order := { order0 with totalAmount := total }
        let s2 := { s1 with orders := s1.orders.map fun o => if o.id = oid then order else o }
        (s2, Except.ok order)

/-- Character-list version of "starts with" (`phone__startswith`). -/
def startsWith : List Char → List Char → Bool
  | [], _ => true
  | _ :: _, [] => false
  | a :: as, b :: bs => a = b && startsWith as bs

/-- The body of `PhonePatternFilter.filter` (`crm/filters.py`): a falsy
(empty) value leaves the queryset unchanged; otherwise keep the
customers whose phone starts with the value (`phone__startswith`,
case-sensitive; a `NULL` phone never matches).  The declaration
`phone_pattern = PhonePatternFilter(field_name='phone')` is itself
broken: `PhonePatternFilter` subclasses `FilterSet`, whose `__init__`
accepts no `field_name` keyword, so the class body of `CustomerFilter`
raises `TypeError` at import; and a `FilterSet` instance is not a
`Filter`, so django-filter would never register or invoke this method
anyway.  This definition embeds the intended behaviour of that dead
method body. -/
def phonePatternFilter (qs : List Customer) (value : String) : List Customer :=
  if value = "" then qs
  else
    qs.filter fun c =>
      match c.phone with
      | some p => startsWith value.toList p.toList
      | none => false

/-- Whether a resolver call raised. -/
def isError {ε α : Type} : Except ε α → Bool
  | Except.error _ => true
  | Except.ok _ => false

/-- The phone condition of the claims, with the empty string grouped with
the matching phones (Python's `if phone:` skips the validator for both
`None` and `""`). -/
def phoneOkForClaim (phone : Option String) : Bool :=
  match phone with
  | some p => p = "" || phone_validator p
  | none => true

/-- The per-record success condition of the bulk-create claims: a
well-formed email that is not already stored, and a phone that is
absent, empty, or matching the phone regex. -/
def claimRecordOk (s : State) (r : CustomerInput) : Bool :=
  validate_email r.email && !decide (r.email ∈ storedEmails s) && phoneOkForClaim r.phone

/-- No two stored customers share an email (the `unique=True` invariant). -/
def emailsNodup (s : State) : Prop := (storedEmails s).Nodup

section Lemmas

/-- The uniqueness pre-check of `CreateCustomer.mutate` is a membership
test on the stored emails. -/
theorem any_email_eq_false_iff (s : State) (e : String) :
    (s.customers.any fun c => c.email = e) = false ↔ e ∉ storedEmails s := by
  simp [storedEmails, List.any_eq_true]

/-- For a record of the input list, membership of its email in the
single pre-check query equals membership among all stored emails. -/
theorem mem_existingEmails (s : State) (input : List CustomerInput)
    (r : CustomerInput) (hr : r ∈ input) :
    r.email ∈ existingEmails s input ↔ r.email ∈ storedEmails s := by
  unfold existingEmails
  simp only [List.mem_filter]
  constructor
  · exact fun h => h.1
  · intro h
    refine ⟨h, ?_⟩
    simp only [List.any_eq_true, decide_eq_true_eq]
    exact ⟨r, hr, rfl⟩

/-- `phoneOkForClaim` is the negation of the phone branch of the resolvers. -/
theorem phoneOkForClaim_iff (phone : Option String) :
    phoneOkForClaim phone
      = !(phoneTruthy phone && !phone_validator (phone.getD "")) := by
  cases phone with
  | none => rfl
  | some p => by_cases hp : p = "" <;> simp [phoneOkForClaim, phoneTruthy, hp]

/-- A bulk record joins the batch exactly when it satisfies the claims'
per-record success condition. -/
theorem bulkRecordError_isNone_eq (s : State) (input : List CustomerInput)
    (r : CustomerInput) (hr : r ∈ input) :
    (bulkRecordError (existingEmails s input) r).isNone = claimRecordOk s r := by
  have hmem := mem_existingEmails s input r hr
  unfold bulkRecordError claimRecordOk
  rw [phoneOkForClaim_iff]
  by_cases he : validate_email r.email
  · by_cases hph : (phoneTruthy r.phone && !phone_validator (r.phone.getD "")) = true
    · simp [he, hph]
    · by_cases hm : r.email ∈ existingEmails s input
      · simp [he, hph, hm, hmem.mp hm]
      · have : r.email ∉ storedEmails s := fun h => hm (hmem.mpr h)
        simp [he, hph, hm, this]
  · simp [he]

/-- The batch of `BulkCreateCustomers.mutate` is the sublist of records
satisfying the per-record success condition. -/
theorem batch_eq_filter_claim (s : State) (input : List CustomerInput) :
    (input.filter fun r => (bulkRecordError (existingEmails s input) r).isNone)
      = input.filter (claimRecordOk s) :=
  List.filter_congr fun r hr => bulkRecordError_isNone_eq s input r hr

/-- `hasDupEmail` decides (the negation of) pairwise-distinct emails. -/
theorem hasDupEmail_eq_false_iff (b : List CustomerInput) :
    hasDupEmail b = false ↔ (b.map fun r => r.email).Nodup := by
  induction b with
  | nil => simp [hasDupEmail]
  | cons r rest ih =>
    simp only [hasDupEmail, List.map_cons, List.nodup_cons, Bool.or_eq_false_iff, ih,
      List.any_eq_false, decide_eq_true_eq, List.mem_map]
    constructor
    · rintro ⟨h1, h2⟩
      exact ⟨fun ⟨r2, hr2, he⟩ => h1 r2 hr2 he, h2⟩
    · rintro ⟨h1, h2⟩
      exact ⟨fun r2 hr2 he => h1 ⟨r2, hr2, he⟩, h2⟩

/-- `bulk_create` assigns the given fields unchanged. -/
theorem assignIds_map_fields (n : Nat) (b : List CustomerInput) :
    ((assignIds n b).map fun c => (c.name, c.email, c.phone))
      = b.map fun r => (r.name, r.email, r.phone) := by
  induction b generalizing n with
  | nil => rfl
  | cons r rest ih => simp [assignIds, ih]

/-- `bulk_create` preserves the email column. -/
theorem assignIds_map_email (n : Nat) (b : List CustomerInput) :
    ((assignIds n b).map fun c => c.email) = b.map fun r => r.email := by
  induction b generalizing n with
  | nil => rfl
  | cons r rest ih => simp [assignIds, ih]

/-- A `filterMap` produces one output per input on which the function
fires. -/
theorem length_filterMap_eq_length_filter {α β : Type} (f : α → Option β)
    (l : List α) :
    (l.filterMap f).length = (l.filter fun x => (f x).isSome).length := by
  induction l with
  | nil => rfl
  | cons x rest ih =>
    cases hx : f x <;> simp [List.filterMap_cons, List.filter_cons, hx, ih]

/-- `calculate_total` is the sum of the associated products' prices (the
`None` aggregate collapses to `0`, the sum of the empty list). -/
theorem calculate_total_eq_sum (s : State) (o : Order) :
    calculate_total s o
      = ((s.products.filter fun p => p.id ∈ o.productIds).map fun p => p.price).sum := by
  unfold calculate_total
  cases h : (s.products.filter fun p => p.id ∈ o.productIds).map fun p => p.price with
  | nil => simp
  | cons a t => simp

end Lemmas

/-- C10: `CreateProduct.mutate` raises a validation error iff the price
is nonpositive or the (defaulted) stock is negative; otherwise it stores
and returns a product with exactly the given name, price and stock,
stock defaulting to `0` when omitted.  The resolver's two conditionals
are the only enforcement on this path. -/
theorem C10_theorem (s : State) (i : ProductInput) :
    (isError (createProduct s i).2 = true ↔ (i.price ≤ 0 ∨ i.stock.getD 0 < 0))
    ∧ (∀ p : Product, (createProduct s i).2 = Except.ok p →
        p = ⟨s.nextProductId, i.name, i.price, i.stock.getD 0⟩
        ∧ (createProduct s i).1.products = s.products ++ [p])
    ∧ (i.stock = none → 0 < i.price →
        (createProduct s i).2 = Except.ok ⟨s.nextProductId, i.name, i.price, 0⟩) := by
  by_cases hp : i.price ≤ 0
  · refine ⟨by simp [createProduct, hp, isError], ?_, ?_⟩
    · intro p hcontra
      simp [createProduct, hp] at hcontra
    · intro _ hpos
      exact absurd hp (not_le.mpr hpos)
  · by_cases hs : i.stock.getD 0 < 0
    · refine ⟨by simp [createProduct, hp, hs, isError], ?_, ?_⟩
      · intro p hcontra
        simp [createProduct, hp, hs] at hcontra
      · intro hnone _
        rw [hnone] at hs
        simp at hs
    · refine ⟨by simp [createProduct, hp, hs, isError], ?_, ?_⟩
      · intro p hok
        have hpe : (⟨s.nextProductId, i.name, i.price, i.stock.getD 0⟩ : Product) = p := by
          simpa [createProduct, hp, hs] using hok
        subst hpe
        exact ⟨rfl, by simp [createProduct, hp, hs]⟩
      · intro hnone _
        simp [createProduct, hp, hs, hnone]

/-- C10 witness: a product with price `5` and omitted stock is created
with stock `0`. -/
theorem C10_witness :
    (⟨"P", (5 : ℚ), none⟩ : ProductInput).stock = none ∧ (0 : ℚ) < 5
    ∧ (createProduct State.empty ⟨"P", (5 : ℚ), none⟩).2
        = Except.ok ⟨1, "P", (5 : ℚ), 0⟩ :=
  ⟨rfl, by decide,
    (C10_theorem State.empty ⟨"P", (5 : ℚ), none⟩).2.2 rfl (by decide)⟩

/-- C2: `CreateOrder.mutate` (under `transaction.atomic`) raises exactly
on an empty product-id list, an unknown customer id, or a product-id
list whose length differs from the count of matching stored products;
and whenever it raises, the database state is unchanged. -/
theorem C2_theorem (s : State) (i : OrderInput) :
    (isError (createOrder s i).2 = true ↔
       (i.product_ids = []
        ∨ (∀ c ∈ s.customers, c.id ≠ i.customer_id)
        ∨ (s.products.filter fun p => p.id ∈ i.product_ids).length ≠ i.product_ids.length))
    ∧ (isError (createOrder s i).2 = true → (createOrder s i).1 = s) := by
  by_cases hemp : i.product_ids.isEmpty
  · have h0 : i.product_ids = [] := by
      cases hids : i.product_ids with
      | nil => rfl
      | cons a t => rw [hids] at hemp; simp [List.isEmpty] at hemp
    refine ⟨?_, ?_⟩
    · constructor
      · intro _
        exact Or.inl h0
      · intro _
        simp [createOrder, hemp, isError]
    · intro _
      simp [createOrder, hemp]
  · have h0 : i.product_ids ≠ [] := by
      intro h
      rw [h] at hemp
      exact hemp rfl
    cases hfind : s.customers.find? (fun c => c.id = i.customer_id) with
    | none =>
      have hall : ∀ c ∈ s.customers, c.id ≠ i.customer_id := by
        intro c hc
        have := List.find?_eq_none.mp hfind c hc
        simpa using this
      refine ⟨?_, ?_⟩
      · constructor
        · intro _
          exact Or.inr (Or.inl hall)
        · intro _
          simp [createOrder, hemp, hfind, isError]
      · intro _
        simp [createOrder, hemp, hfind]
    | some c =>
      have hcmem : c ∈ s.customers := List.mem_of_find?_eq_some hfind
      have hcid : c.id = i.customer_id := by
        have := List.find?_some hfind
        simpa using this
      have hnall : ¬ (∀ c2 ∈ s.customers, c2.id ≠ i.customer_id) := fun h => h c hcmem hcid
      by_cases hlen :
          (s.products.filter fun p => p.id ∈ i.product_ids).length = i.product_ids.length
      · refine ⟨?_, ?_⟩
        · simp [createOrder, hemp, hfind, hlen, isError, h0, hnall]
        · intro habs
          simp [createOrder, hemp, hfind, hlen, isError] at habs
      · refine ⟨?_, ?_⟩
        · constructor
          · intro _
            exact Or.inr (Or.inr hlen)
          · intro _
            simp [createOrder, hemp, hfind, hlen, isError]
        · intro _
          simp [createOrder, hemp, hfind, hlen]

/-- C2 witness: an order with an empty product list is rejected and the
empty database is unchanged. -/
theorem C2_witness :
    isError (createOrder State.empty ⟨1, []⟩).2 = true
    ∧ (createOrder State.empty ⟨1, []⟩).1 = State.empty :=
  ⟨by decide, (C2_theorem State.empty ⟨1, []⟩).2 (by decide)⟩

/-- C3: on every successful `CreateOrder.mutate` call, the returned
order's `total_amount` is the sum of the prices of its associated
products (`calculate_total`, whose `None` aggregate yields `0.00`), and
the stored order row carries this total. -/
theorem C3_theorem (s s2 : State) (i : OrderInput) (o : Order)
    (h : createOrder s i = (s2, Except.ok o)) :
    o.totalAmount
        = ((s2.products.filter fun p => p.id ∈ o.productIds).map fun p => p.price).sum
    ∧ o.totalAmount = calculate_total s2 o
    ∧ o ∈ s2.orders := by
  by_cases hemp : i.product_ids.isEmpty
  · exfalso
    rw [createOrder] at h
    simp [hemp] at h
  · cases hfind : s.customers.find? (fun c => c.id = i.customer_id) with
    | none =>
      exfalso
      rw [createOrder] at h
      simp [hemp, hfind] at h
    | some c =>
      by_cases hlen :
          (s.products.filter fun p => p.id ∈ i.product_ids).length = i.product_ids.length
      · rw [createOrder] at h
        simp only [hemp, Bool.false_eq_true, if_false, hfind, hlen, ne_eq,
          not_true_eq_false, if_true, if_false, ite_false, ite_true,
          Prod.mk.injEq, Except.ok.injEq] at h
        obtain ⟨hs2, ho⟩ := h
        subst hs2
        subst ho
        refine ⟨?_, ?_, ?_⟩
        · rw [calculate_total_eq_sum]
        · rfl
        · refine List.mem_map.mpr ⟨⟨s.nextOrderId, c.id,
            ((s.products.filter fun p => p.id ∈ i.product_ids).map fun p => p.id), 0⟩, ?_, ?_⟩
          · simp
          · simp
      · exfalso
        rw [createOrder] at h
        simp [hemp, hfind, hlen] at h

/-- C3 witness: a one-product order stores total `5`. -/
theorem C3_witness :
    createOrder ⟨[⟨1, "A", "a@x.com", none⟩], [⟨1, "P", (5 : ℚ), 2⟩], [], 2, 2, 1⟩ ⟨1, [1]⟩
        = (⟨[⟨1, "A", "a@x.com", none⟩], [⟨1, "P", (5 : ℚ), 2⟩],
            [⟨1, 1, [1], (5 : ℚ)⟩], 2, 2, 2⟩, Except.ok ⟨1, 1, [1], (5 : ℚ)⟩)
    ∧ (⟨1, 1, [1], (5 : ℚ)⟩ : Order).totalAmount
        = (((⟨[⟨1, "A", "a@x.com", none⟩], [⟨1, "P", (5 : ℚ), 2⟩],
              [⟨1, 1, [1], (5 : ℚ)⟩], 2, 2, 2⟩ : State).products.filter
                fun p => p.id ∈ (⟨1, 1, [1], (5 : ℚ)⟩ : Order).productIds).map
                  fun p => p.price).sum
    ∧ (⟨1, 1, [1], (5 : ℚ)⟩ : Order).totalAmount
        = calculate_total ⟨[⟨1, "A", "a@x.com", none⟩], [⟨1, "P", (5 : ℚ), 2⟩],
            [⟨1, 1, [1], (5 : ℚ)⟩], 2, 2, 2⟩ ⟨1, 1, [1], (5 : ℚ)⟩
    ∧ (⟨1, 1, [1], (5 : ℚ)⟩ : Order)
        ∈ (⟨[⟨1, "A", "a@x.com", none⟩], [⟨1, "P", (5 : ℚ), 2⟩],
            [⟨1, 1, [1], (5 : ℚ)⟩], 2, 2, 2⟩ : State).orders :=
  ⟨by simp [createOrder, calculate_total],
    C3_theorem ⟨[⟨1, "A", "a@x.com", none⟩], [⟨1, "P", (5 : ℚ), 2⟩], [], 2, 2, 1⟩
      ⟨[⟨1, "A", "a@x.com", none⟩], [⟨1, "P", (5 : ℚ), 2⟩], [⟨1, 1, [1], (5 : ℚ)⟩], 2, 2, 2⟩
      ⟨1, [1]⟩ ⟨1, 1, [1], (5 : ℚ)⟩ (by simp [createOrder, calculate_total])⟩

/-- When stored product ids are distinct and every requested id is
stored, the `Product.objects.filter(pk__in=...)` count is the number of
distinct requested ids, hence smaller than a duplicated request list. -/
theorem filter_length_lt_of_dup (s : State) (ids : List Nat)
    (hpk : (s.products.map fun p => p.id).Nodup)
    (hdup : ¬ ids.Nodup)
    (hall : ∀ pid ∈ ids, pid ∈ s.products.map fun p => p.id) :
    (s.products.filter fun p => p.id ∈ ids).length < ids.length := by
  have hBnodup : ((s.products.map fun p => p.id).filter fun a => decide (a ∈ ids)).Nodup :=
    hpk.filter _
  have hBmem : ∀ x : Nat,
      (x ∈ (s.products.map fun p => p.id).filter fun a => decide (a ∈ ids)) ↔ x ∈ ids := by
    intro x
    simp only [List.mem_filter, decide_eq_true_eq]
    exact ⟨fun h => h.2, fun h => ⟨hall x h, h⟩⟩
  have hBfin : ((s.products.map fun p => p.id).filter fun a => decide (a ∈ ids)).toFinset
      = ids.toFinset := by
    apply Finset.ext
    intro x
    simp only [List.mem_toFinset]
    exact hBmem x
  have h1 : ((s.products.map fun p => p.id).filter fun a => decide (a ∈ ids)).length
      = ids.dedup.length := by
    rw [← List.dedup_eq_self.mpr hBnodup, ← List.card_toFinset, ← List.card_toFinset, hBfin]
  have h2 : ids.dedup.length < ids.length := by
    rcases Nat.lt_or_ge ids.dedup.length ids.length with h | h
    · exact h
    · exfalso
      have hsub := List.dedup_sublist ids
      have heq : ids.dedup.length = ids.length := Nat.le_antisymm hsub.length_le h
      exact hdup (List.dedup_eq_self.mp (hsub.eq_of_length heq))
  have h3 : (s.products.filter fun p => p.id ∈ ids).length
      = ((s.products.map fun p => p.id).filter fun a => decide (a ∈ ids)).length := by
    rw [List.filter_map, List.length_map]
    rfl
  rw [h3, h1]
  exact h2

/-- C9: `CreateOrder.mutate` rejects a `product_ids` list containing a
repeated id even when every listed id refers to a stored product: the
queryset count is the number of distinct ids, the length check fails,
the listing of invalid ids is empty, so the message ends after
"found: ", and nothing is written. -/
theorem C9_theorem (s : State) (i : OrderInput)
    (hpk : (s.products.map fun p => p.id).Nodup)
    (hdup : ¬ i.product_ids.Nodup)
    (hall : ∀ pid ∈ i.product_ids, pid ∈ s.products.map fun p => p.id) :
    isError (createOrder s i).2 = true
    ∧ (createOrder s i).1 = s
    ∧ ((∃ c ∈ s.customers, c.id = i.customer_id) →
        (createOrder s i).2
          = Except.error "Validation Error: Invalid product ID(s) found: ") := by
  have hlt := filter_length_lt_of_dup s i.product_ids hpk hdup hall
  have hlen : (s.products.filter fun p => p.id ∈ i.product_ids).length
      ≠ i.product_ids.length := Nat.ne_of_lt hlt
  have hne : i.product_ids ≠ [] := by
    intro h
    apply hdup
    rw [h]
    exact List.nodup_nil
  have hempB : ¬ i.product_ids.isEmpty = true := by
    cases hids : i.product_ids with
    | nil => exact absurd hids hne
    | cons a t => simp [List.isEmpty]
  have hinv : (i.product_ids.filter fun pid =>
      !(pid ∈ ((s.products.filter fun p => p.id ∈ i.product_ids).map fun p => p.id))) = [] := by
    apply List.filter_eq_nil_iff.mpr
    intro pid hpid
    simp only [Bool.not_eq_true', Bool.not_eq_true, decide_eq_false_iff_not, not_not]
    rcases List.mem_map.mp (hall pid hpid) with ⟨p, hp, hpe⟩
    exact List.mem_map.mpr ⟨p, List.mem_filter.mpr ⟨hp, by simp [hpe, hpid]⟩, hpe⟩
  cases hfind : s.customers.find? (fun c => c.id = i.customer_id) with
  | none =>
    refine ⟨?_, ?_, ?_⟩
    · simp [createOrder, hempB, hfind, isError]
    · simp [createOrder, hempB, hfind]
    · rintro ⟨c, hc, hcid⟩
      have := List.find?_eq_none.mp hfind c hc
      simp [hcid] at this
  | some c =>
    refine ⟨?_, ?_, ?_⟩
    · simp [createOrder, hempB, hfind, hlen, isError]
    · simp [createOrder, hempB, hfind, hlen]
    · intro _
      simp only [createOrder, hempB, Bool.false_eq_true, if_false, hfind, hlen, ne_eq,
        not_false_iff, if_true, ite_true, ite_false]
      rw [hinv]
      rfl

/-- C9 witness: requesting the stored product `1` twice is rejected with
an empty invalid-id listing. -/
theorem C9_witness :
    ¬ ([1, 1] : List Nat).Nodup
    ∧ (createOrder ⟨[⟨1, "A", "a@x.com", none⟩], [⟨1, "P", (5 : ℚ), 2⟩], [], 2, 2, 1⟩
        ⟨1, [1, 1]⟩).2
      = Except.error "Validation Error: Invalid product ID(s) found: " :=
  ⟨by decide,
    (C9_theorem ⟨[⟨1, "A", "a@x.com", none⟩], [⟨1, "P", (5 : ℚ), 2⟩], [], 2, 2, 1⟩
        ⟨1, [1, 1]⟩ (by decide) (by decide) (by decide)).2.2
      ⟨⟨1, "A", "a@x.com", none⟩, by decide, rfl⟩⟩

/-- C4 (code bug): the code means to report
"Validation Error: Email '<email>' already exists." on a duplicate
email, but the `except` handler evaluates `'duplicate' in e.code_list`
and Django's `ValidationError` has no `code_list` attribute, so the
handler raises `AttributeError` instead and the claimed message is never
produced; no customer is created either way.  Evaluated at a concrete
duplicate-email input against a state storing `a@x.com`. -/
theorem C4_theorem :
    (createCustomer ⟨[⟨1, "Alice", "a@x.com", none⟩], [], [], 2, 1, 1⟩
        ⟨"Bob", "a@x.com", none⟩).2 = Except.error attributeErrorMessage
    ∧ (createCustomer ⟨[⟨1, "Alice", "a@x.com", none⟩], [], [], 2, 1, 1⟩
        ⟨"Bob", "a@x.com", none⟩).1
      = ⟨[⟨1, "Alice", "a@x.com", none⟩], [], [], 2, 1, 1⟩
    ∧ attributeErrorMessage ≠ "Validation Error: Email 'a@x.com' already exists." := by
  refine ⟨by decide, by decide, by decide⟩

/-- C5 counterexample: the empty string is a provided phone that does
not match the phone regex, yet `CreateCustomer.mutate` accepts it
(Python's `if phone:` is false for `""`), creating the customer instead
of raising. -/
theorem C5_counterexample :
    phone_validator "" = false
    ∧ (createCustomer State.empty ⟨"Carol", "carol@x.com", some ""⟩).2
      = Except.ok (⟨1, "Carol", "carol@x.com", some ""⟩,
          "Customer 'Carol' created successfully.") := by
  refine ⟨by decide, by decide⟩

/-- C5 (amended): `CreateCustomer.mutate` raises and writes nothing when
the email is ill-formed, and when a provided, nonempty phone fails the
phone regex; an input with no phone and a well-formed, fresh email
succeeds with no phone check. -/
theorem C5_theorem (s : State) (i : CustomerInput) :
    (validate_email i.email = false →
       isError (createCustomer s i).2 = true ∧ (createCustomer s i).1 = s)
    ∧ (∀ p, i.phone = some p → p ≠ "" → phone_validator p = false →
       isError (createCustomer s i).2 = true ∧ (createCustomer s i).1 = s)
    ∧ (i.phone = none → validate_email i.email = true → i.email ∉ storedEmails s →
       isError (createCustomer s i).2 = false) := by
  refine ⟨?_, ?_, ?_⟩
  · intro hemail
    constructor
    · simp [createCustomer, hemail, isError]
    · simp [createCustomer, hemail]
  · intro p hp hpne hpv
    by_cases hemail : validate_email i.email
    · have hph : (phoneTruthy i.phone && !phone_validator (i.phone.getD "")) = true := by
        rw [hp]
        simp [phoneTruthy, hpne, hpv]
      constructor
      · simp [createCustomer, hemail, hph, isError]
      · simp [createCustomer, hemail, hph]
    · constructor
      · simp [createCustomer, hemail, isError]
      · simp [createCustomer, hemail]
  · intro hp hemail hmem
    have hany : (s.customers.any fun c => c.email = i.email) = false := by
      cases hb : s.customers.any fun c => c.email = i.email with
      | false => rfl
      | true =>
        exfalso
        apply hmem
        rcases List.any_eq_true.mp hb with ⟨c, hc, he⟩
        rw [decide_eq_true_eq] at he
        exact he ▸ List.mem_map.mpr ⟨c, hc, rfl⟩
    simp [createCustomer, hemail, hp, phoneTruthy, hany, isError]

/-- C5 witness: an ill-formed email is rejected; a nonempty ill-formed
phone is rejected; no phone plus a fresh well-formed email succeeds. -/
theorem C5_witness :
    (isError (createCustomer State.empty ⟨"Dave", "bad", none⟩).2 = true
      ∧ (createCustomer State.empty ⟨"Dave", "bad", none⟩).1 = State.empty)
    ∧ (isError (createCustomer State.empty ⟨"Eve", "eve@x.com", some "abc"⟩).2 = true
      ∧ (createCustomer State.empty ⟨"Eve", "eve@x.com", some "abc"⟩).1 = State.empty)
    ∧ isError (createCustomer State.empty ⟨"Fay", "fay@x.com", none⟩).2 = false :=
  ⟨(C5_theorem State.empty ⟨"Dave", "bad", none⟩).1 (by decide),
    (C5_theorem State.empty ⟨"Eve", "eve@x.com", some "abc"⟩).2.1 "abc" rfl
      (by decide) (by decide),
    (C5_theorem State.empty ⟨"Fay", "fay@x.com", none⟩).2.2 rfl (by decide) (by decide)⟩

/-- `BulkCreateCustomers.mutate` with its batch rewritten to the
claims' per-record condition. -/
theorem bulkCreateCustomers_eq (s : State) (input : List CustomerInput) :
    bulkCreateCustomers s input
      = (if (input.filter (claimRecordOk s)).isEmpty then
           (s, [], input.filterMap (bulkRecordError (existingEmails s input)))
         else if bulkInsertViolates s (input.filter (claimRecordOk s)) then
           (s, [],
            input.filterMap (bulkRecordError (existingEmails s input)) ++ [bulkDbErrorMessage])
         else
           ({ s with
              customers := s.customers
                ++ assignIds s.nextCustomerId (input.filter (claimRecordOk s)),
              nextCustomerId :=
                s.nextCustomerId + (input.filter (claimRecordOk s)).length },
            assignIds s.nextCustomerId (input.filter (claimRecordOk s)),
            input.filterMap (bulkRecordError (existingEmails s input)))) := by
  simp only [bulkCreateCustomers, batch_eq_filter_claim]

/-- One error message per record failing the per-record checks. -/
theorem bulk_errors_length (s : State) (input : List CustomerInput) :
    (input.filterMap (bulkRecordError (existingEmails s input))).length
      = (input.filter fun r => !claimRecordOk s r).length := by
  rw [length_filterMap_eq_length_filter]
  congr 1
  apply List.filter_congr
  intro r hr
  have h1 : ∀ o : Option String, o.isSome = !o.isNone := by
    intro o
    cases o <;> rfl
  rw [h1, bulkRecordError_isNone_eq s input r hr]

/-- A nonempty batch of records passing the per-record checks, with
pairwise-distinct emails, does not violate the unique constraint. -/
theorem bulkInsertViolates_eq_false (s : State) (input : List CustomerInput)
    (hnd : ((input.filter (claimRecordOk s)).map fun r => r.email).Nodup) :
    bulkInsertViolates s (input.filter (claimRecordOk s)) = false := by
  unfold bulkInsertViolates
  rw [Bool.or_eq_false_iff]
  constructor
  · exact (hasDupEmail_eq_false_iff _).mpr hnd
  · rw [List.any_eq_false]
    intro r hr
    have hok : claimRecordOk s r = true := (List.mem_filter.mp hr).2
    have hmem : r.email ∉ storedEmails s := by
      simp only [claimRecordOk, Bool.and_eq_true, Bool.not_eq_true',
        decide_eq_false_iff_not] at hok
      exact hok.1.2
    intro hc
    rw [(any_email_eq_false_iff s r.email).mpr hmem] at hc
    exact Bool.false_ne_true hc

/-- C1 counterexample: two records that each satisfy the per-record
conditions (fresh well-formed email, no phone) but share an email are
both dropped — the bulk insert rolls back and the customers list is
empty; and a record whose provided phone is the empty string (which does
not match the phone regex) is created with no error message instead of
contributing one. -/
theorem C1_counterexample :
    claimRecordOk State.empty ⟨"Alice", "dup@x.com", none⟩ = true
    ∧ claimRecordOk State.empty ⟨"Bob", "dup@x.com", none⟩ = true
    ∧ (bulkCreateCustomers State.empty
        [⟨"Alice", "dup@x.com", none⟩, ⟨"Bob", "dup@x.com", none⟩]).2.1 = []
    ∧ phone_validator "" = false
    ∧ (bulkCreateCustomers State.empty [⟨"Carol", "c@x.com", some ""⟩]).2.2 = []
    ∧ ((bulkCreateCustomers State.empty [⟨"Carol", "c@x.com", some ""⟩]).2.1.map
        fun c => c.email) = ["c@x.com"] := by
  refine ⟨by decide, by decide, by decide, by decide, by decide, by decide⟩

/-- C1 (amended): when the records passing the per-record checks
(well-formed email not already stored; phone absent, empty, or matching
the regex) have pairwise-distinct emails, `BulkCreateCustomers.mutate`
creates exactly those records, in order, with exactly the given fields,
and every other record contributes exactly one message to `errors`;
failures of some records do not prevent the valid creations. -/
theorem C1_theorem (s : State) (input : List CustomerInput)
    (hnd : ((input.filter (claimRecordOk s)).map fun r => r.email).Nodup) :
    ((bulkCreateCustomers s input).2.1.map fun c => (c.name, c.email, c.phone))
        = ((input.filter (claimRecordOk s)).map fun r => (r.name, r.email, r.phone))
    ∧ (bulkCreateCustomers s input).2.2
        = input.filterMap (bulkRecordError (existingEmails s input))
    ∧ (bulkCreateCustomers s input).2.2.length
        = (input.filter fun r => !claimRecordOk s r).length := by
  have herr := bulk_errors_length s input
  rw [bulkCreateCustomers_eq]
  cases hemp : (input.filter (claimRecordOk s)).isEmpty with
  | true =>
    have hnil : input.filter (claimRecordOk s) = [] := List.isEmpty_iff.mp hemp
    rw [if_pos rfl]
    exact ⟨by simp [hnil], rfl, herr⟩
  | false =>
    have hv : bulkInsertViolates s (input.filter (claimRecordOk s)) = false :=
      bulkInsertViolates_eq_false s input hnd
    rw [if_neg Bool.false_ne_true,
      if_neg (by intro h; rw [hv] at h; exact Bool.false_ne_true h)]
    exact ⟨assignIds_map_fields s.nextCustomerId _, rfl, herr⟩

/-- C1 witness: of two records, the well-formed one is created and the
ill-formed one contributes exactly one error. -/
theorem C1_witness :
    ((([⟨"Ann", "ann@x.com", none⟩, ⟨"Bob", "bad", none⟩] : List CustomerInput).filter
        (claimRecordOk State.empty)).map fun r => r.email).Nodup
    ∧ (((bulkCreateCustomers State.empty
          [⟨"Ann", "ann@x.com", none⟩, ⟨"Bob", "bad", none⟩]).2.1.map
            fun c => (c.name, c.email, c.phone))
        = ((([⟨"Ann", "ann@x.com", none⟩, ⟨"Bob", "bad", none⟩] : List CustomerInput).filter
            (claimRecordOk State.empty)).map fun r => (r.name, r.email, r.phone))
      ∧ (bulkCreateCustomers State.empty
          [⟨"Ann", "ann@x.com", none⟩, ⟨"Bob", "bad", none⟩]).2.2
        = ([⟨"Ann", "ann@x.com", none⟩, ⟨"Bob", "bad", none⟩] : List CustomerInput).filterMap
            (bulkRecordError (existingEmails State.empty
              [⟨"Ann", "ann@x.com", none⟩, ⟨"Bob", "bad", none⟩]))
      ∧ (bulkCreateCustomers State.empty
          [⟨"Ann", "ann@x.com", none⟩, ⟨"Bob", "bad", none⟩]).2.2.length
        = (([⟨"Ann", "ann@x.com", none⟩, ⟨"Bob", "bad", none⟩] : List CustomerInput).filter
            fun r => !claimRecordOk State.empty r).length) :=
  ⟨by decide,
    C1_theorem State.empty [⟨"Ann", "ann@x.com", none⟩, ⟨"Bob", "bad", none⟩] (by decide)⟩

/-- C8: when some two records passing the per-record checks share an
email (necessarily fresh), the single bulk insert violates the unique
constraint, the transaction rolls back leaving the state unchanged, the
returned customers list is empty, and exactly one database-error
message is appended after the per-record messages. -/
theorem C8_theorem (s : State) (input : List CustomerInput)
    (hdup : ¬ ((input.filter (claimRecordOk s)).map fun r => r.email).Nodup) :
    (bulkCreateCustomers s input).1 = s
    ∧ (bulkCreateCustomers s input).2.1 = []
    ∧ (bulkCreateCustomers s input).2.2
        = input.filterMap (bulkRecordError (existingEmails s input))
            ++ [bulkDbErrorMessage] := by
  rw [bulkCreateCustomers_eq]
  have hempf : (input.filter (claimRecordOk s)).isEmpty = false := by
    cases hb : (input.filter (claimRecordOk s)).isEmpty with
    | false => rfl
    | true =>
      exfalso
      apply hdup
      rw [List.isEmpty_iff.mp hb]
      exact List.nodup_nil
  have hv : bulkInsertViolates s (input.filter (claimRecordOk s)) = true := by
    unfold bulkInsertViolates
    rw [Bool.or_eq_true]
    cases hhd : hasDupEmail (input.filter (claimRecordOk s)) with
    | true => exact Or.inl rfl
    | false =>
      exfalso
      exact hdup ((hasDupEmail_eq_false_iff _).mp hhd)
  rw [if_neg (by intro h; rw [hempf] at h; exact Bool.false_ne_true h), if_pos hv]
  exact ⟨rfl, rfl, rfl⟩

/-- C8 witness: two individually valid records sharing a fresh email
produce no customers and a single appended database-error message. -/
theorem C8_witness :
    ¬ ((([⟨"Alice", "dup@x.com", none⟩, ⟨"Bob", "dup@x.com", none⟩] :
          List CustomerInput).filter (claimRecordOk State.empty)).map
            fun r => r.email).Nodup
    ∧ ((bulkCreateCustomers State.empty
          [⟨"Alice", "dup@x.com", none⟩, ⟨"Bob", "dup@x.com", none⟩]).1 = State.empty
      ∧ (bulkCreateCustomers State.empty
          [⟨"Alice", "dup@x.com", none⟩, ⟨"Bob", "dup@x.com", none⟩]).2.1 = []
      ∧ (bulkCreateCustomers State.empty
          [⟨"Alice", "dup@x.com", none⟩, ⟨"Bob", "dup@x.com", none⟩]).2.2
        = ([⟨"Alice", "dup@x.com", none⟩, ⟨"Bob", "dup@x.com", none⟩] :
            List CustomerInput).filterMap
              (bulkRecordError (existingEmails State.empty
                [⟨"Alice", "dup@x.com", none⟩, ⟨"Bob", "dup@x.com", none⟩]))
            ++ [bulkDbErrorMessage]) :=
  ⟨by decide,
    C8_theorem State.empty [⟨"Alice", "dup@x.com", none⟩, ⟨"Bob", "dup@x.com", none⟩]
      (by decide)⟩

/-- `CreateProduct.mutate` never touches the customer table. -/
theorem customers_createProduct (s : State) (i : ProductInput) :
    (createProduct s i).1.customers = s.customers := by
  by_cases hp : i.price ≤ 0
  · simp [createProduct, hp]
  · by_cases hs : i.stock.getD 0 < 0 <;> simp [createProduct, hp, hs]

/-- `CreateOrder.mutate` never touches the customer table. -/
theorem customers_createOrder (s : State) (i : OrderInput) :
    (createOrder s i).1.customers = s.customers := by
  by_cases hemp : i.product_ids.isEmpty
  · simp [createOrder, hemp]
  · cases hfind : s.customers.find? (fun c => c.id = i.customer_id) with
    | none => simp [createOrder, hemp, hfind]
    | some c =>
      by_cases hlen :
          (s.products.filter fun p => p.id ∈ i.product_ids).length = i.product_ids.length
      · simp [createOrder, hemp, hfind, hlen]
      · simp [createOrder, hemp, hfind, hlen]

/-- C6: starting from a state in which no two stored customers share an
email, each of the four mutations (`CreateCustomer`,
`BulkCreateCustomers`, `CreateProduct`, `CreateOrder`) preserves that
invariant, for every input. -/
theorem C6_theorem (s : State) (h : emailsNodup s) :
    (∀ i : CustomerInput, emailsNodup (createCustomer s i).1)
    ∧ (∀ input : List CustomerInput, emailsNodup (bulkCreateCustomers s input).1)
    ∧ (∀ i : ProductInput, emailsNodup (createProduct s i).1)
    ∧ (∀ i : OrderInput, emailsNodup (createOrder s i).1) := by
  refine ⟨?_, ?_, ?_, ?_⟩
  · intro i
    by_cases hemail : validate_email i.email
    · by_cases hph : (phoneTruthy i.phone && !phone_validator (i.phone.getD "")) = true
      · simpa [createCustomer, hemail, hph] using h
      · cases hany : s.customers.any fun c => c.email = i.email with
        | true => simpa [createCustomer, hemail, hph, hany] using h
        | false =>
          have hmem : i.email ∉ storedEmails s := (any_email_eq_false_iff s i.email).mp hany
          unfold emailsNodup storedEmails
          simp only [createCustomer, hemail, hph, hany, Bool.not_true, Bool.false_eq_true,
            if_false, if_true, ite_false, ite_true]
          rw [List.map_append, List.nodup_append]
          refine ⟨h, List.nodup_singleton _, ?_⟩
          intro a ha hb
          rw [List.map_singleton, List.mem_singleton] at hb
          subst hb
          exact hmem ha
    · simpa [createCustomer, hemail] using h
  · intro input
    rw [show (bulkCreateCustomers s input).1
          = ((bulkCreateCustomers s input).1 : State) from rfl, bulkCreateCustomers_eq]
    cases hemp : (input.filter (claimRecordOk s)).isEmpty with
    | true =>
      rw [if_pos rfl]
      exact h
    | false =>
      cases hv : bulkInsertViolates s (input.filter (claimRecordOk s)) with
      | true =>
        rw [if_neg Bool.false_ne_true, if_pos rfl]
        exact h
      | false =>
        rw [if_neg Bool.false_ne_true, if_neg Bool.false_ne_true]
        unfold bulkInsertViolates at hv
        obtain ⟨h1, h2⟩ := Bool.or_eq_false_iff.mp hv
        unfold emailsNodup storedEmails
        show (List.map (fun c => c.email)
          (s.customers ++ assignIds s.nextCustomerId (input.filter (claimRecordOk s)))).Nodup
        rw [List.map_append, assignIds_map_email, List.nodup_append]
        refine ⟨h, (hasDupEmail_eq_false_iff _).mp h1, ?_⟩
        intro a ha hb
        rcases List.mem_map.mp hb with ⟨r, hr, hre⟩
        have := List.any_eq_false.mp h2 r hr
        have hany : (s.customers.any fun c => c.email = r.email) = false := by
          cases hx : s.customers.any fun c => c.email = r.email with
          | false => rfl
          | true => exact absurd hx this
        have : r.email ∉ storedEmails s := (any_email_eq_false_iff s r.email).mp hany
        exact this (hre ▸ ha)
  · intro i
    unfold emailsNodup storedEmails
    rw [customers_createProduct]
    exact h
  · intro i
    unfold emailsNodup storedEmails
    rw [customers_createOrder]
    exact h

/-- C6 witness: the empty store satisfies the invariant and
`CreateCustomer` preserves it. -/
theorem C6_witness :
    emailsNodup State.empty
    ∧ emailsNodup (createCustomer State.empty ⟨"Ann", "ann@x.com", none⟩).1 :=
  ⟨by simp [emailsNodup, storedEmails, State.empty],
    (C6_theorem State.empty (by simp [emailsNodup, storedEmails, State.empty])).1
      ⟨"Ann", "ann@x.com", none⟩⟩

/-- C7 (code bug): the body of `PhonePatternFilter.filter` does behave
as the claim describes — an empty value returns the queryset unchanged,
a nonempty value keeps exactly the customers whose phone starts with it
(case-sensitive; a missing phone never matches) — but the declaration
`phone_pattern = PhonePatternFilter(field_name='phone')` raises
`TypeError` at import (`FilterSet.__init__` accepts no `field_name`) and
a `FilterSet` is not a `Filter`, so django-filter never registers or
invokes this method: the theorem verifies the intended, unreachable
method body. -/
theorem C7_theorem (qs : List Customer) (v : String) :
    (v = "" → phonePatternFilter qs v = qs)
    ∧ (v ≠ "" → ∀ c : Customer,
        c ∈ phonePatternFilter qs v ↔
          c ∈ qs ∧ ∃ p, c.phone = some p ∧ startsWith v.toList p.toList = true) := by
  constructor
  · intro hv
    simp [phonePatternFilter, hv]
  · intro hv c
    unfold phonePatternFilter
    rw [if_neg hv, List.mem_filter]
    constructor
    · rintro ⟨hc, hcond⟩
      refine ⟨hc, ?_⟩
      cases hp : c.phone with
      | none =>
        rw [hp] at hcond
        simp at hcond
      | some p =>
        rw [hp] at hcond
        exact ⟨p, rfl, hcond⟩
    · rintro ⟨hc, p, hp, hsw⟩
      refine ⟨hc, ?_⟩
      rw [hp]
      exact hsw

/-- C7 witness: with value `"5"`, a customer whose phone is
`"555-123"` is kept exactly by the startswith condition; the empty
value is the identity. -/
theorem C7_witness :
    phonePatternFilter [⟨1, "A", "a@x.com", some "555-123"⟩] ""
        = [⟨1, "A", "a@x.com", some "555-123"⟩]
    ∧ ((⟨1, "A", "a@x.com", some "555-123"⟩ : Customer)
          ∈ phonePatternFilter [⟨1, "A", "a@x.com", some "555-123"⟩] "5"
        ↔ (⟨1, "A", "a@x.com", some "555-123"⟩ : Customer)
            ∈ [(⟨1, "A", "a@x.com", some "555-123"⟩ : Customer)]
          ∧ ∃ p, (⟨1, "A", "a@x.com", some "555-123"⟩ : Customer).phone = some p
              ∧ startsWith "5".toList p.toList = true) :=
  ⟨(C7_theorem [⟨1, "A", "a@x.com", some "555-123"⟩] "").1 rfl,
    (C7_theorem [⟨1, "A", "a@x.com", some "555-123"⟩] "5").2 (by decide)
      ⟨1, "A", "a@x.com", some "555-123"⟩⟩

end CRM
